import Mathlib

/-!
Verification development for the dfcpub repository slice.

Shallow embedding of:
  * `src/ais/s3/mpt.go`        — multipart-upload tracker (package `s3`)
  * `src/unnamed/part_000`     — AuthN token/ACL helpers (package `authnsrv`)
                                 and the LRU `InitAndRun` skeleton (package `lru`)
  * `src/ais/dpq.go`           — datapath query parser (package `ais`)
  * `src/xaction/xreg/bucket.go` — bucket-xaction renewal (package `xreg`)

Go maps iterated in code are embedded as association lists; the filesystem is
embedded as the list of FQNs currently present on disk; xattr stores are
embedded as association lists from FQN to the persisted payload.
-/

namespace S3M

/-- One part of a multipart upload (`MptPart` in mpt.go).
Only `(md5, size, num)` are persisted as xattr. -/
structure MptPart where
  md5 : String
  fqn : String
  size : Int
  num : Int
deriving DecidableEq, Repr

/-- An active multipart upload (`mpt` in mpt.go). `ctime` is the
`InitUpload` time, embedded as a natural-number timestamp. -/
structure Mpt where
  bckName : String
  objName : String
  parts : List MptPart
  ctime : Nat
deriving DecidableEq, Repr

/-- The xattr payload persisted by `storeMptXattr`: the starred attributes
`(md5, size, num)` of every part. -/
def xattrOf (m : Mpt) : List (String × Int × Int) :=
  m.parts.map (fun p => (p.md5, p.size, p.num))

/-- The registry `up : uploads`, a Go map from upload ID to `*mpt`,
embedded as an association list (first binding wins). -/
abbrev Uploads := List (String × Mpt)

/-- Go map read `up[id]`. -/
def lookupUp (id : String) (l : Uploads) : Option Mpt :=
  (l.find? (fun p => p.1 = id)).map (·.2)

/-- Go map delete `delete(up, id)`. -/
def eraseUp (id : String) (l : Uploads) : Uploads :=
  l.filter (fun p => ¬ p.1 = id)

/-- Go map write `up[id] = m` (replaces any existing binding). -/
def setUp (id : String) (m : Mpt) (l : Uploads) : Uploads :=
  (id, m) :: eraseUp id l

/-- Update the (single) binding of `id`, if present. -/
def updateUp (id : String) (f : Mpt → Mpt) : Uploads → Uploads
  | [] => []
  | p :: rest => if p.1 = id then (p.1, f p.2) :: rest else p :: updateUp id f rest

/-- Whole tracker state: the registry guarded by `mu`, plus the parts of the
environment that `mpt.go` touches — the set of FQNs present on disk and the
xattr blocks written by `storeMptXattr`. -/
structure S3State where
  up : Uploads
  disk : List String
  xattrs : List (String × List (String × Int × Int))
deriving DecidableEq, Repr

/-- `InitUpload(id, bckName, objName)`: insert a fresh `mpt` with no parts.
`now` stands for the `time.Now()` call. -/
def InitUpload (id bckName objName : String) (now : Nat) (s : S3State) : S3State :=
  { s with up := setUp id { bckName := bckName, objName := objName, parts := [], ctime := now } s.up }

/-- `AddPart(id, npart)`: append the part to the upload's part list;
error iff the upload is not found. -/
def AddPart (id : String) (npart : MptPart) (s : S3State) : S3State × Bool :=
  match lookupUp id s.up with
  | none => (s, true)
  | some _ => ({ s with up := updateUp id (fun m => { m with parts := m.parts ++ [npart] }) s.up }, false)

/-- `os.RemoveAll(fqn)` on the embedded disk. -/
def removeFQN (disk : List String) (fqn : String) : List String :=
  disk.filter (fun f => ¬ f = fqn)

/-- `FinishUpload(id, fqn, aborted)`: no-op when the upload is absent;
otherwise store the xattr block iff not aborted, unlink every part workfile,
and delete the upload from the registry. -/
def FinishUpload (id fqn : String) (aborted : Bool) (s : S3State) : S3State :=
  match lookupUp id s.up with
  | none => s
  | some upload =>
    let s1 := if aborted then s else { s with xattrs := (fqn, xattrOf upload) :: s.xattrs }
    { s1 with
      disk := upload.parts.foldl (fun d p => removeFQN d p.fqn) s1.disk
      up := eraseUp id s1.up }

/-- `UploadExists(id)`. -/
def UploadExists (id : String) (s : S3State) : Bool :=
  (lookupUp id s.up).isSome

/-- The info entry built by `ListUploads` for each active upload. -/
structure UploadInfoResult where
  key : String
  uploadID : String
  initiated : Nat
deriving DecidableEq, Repr

/-- The result of `ListUploads`. -/
structure ListMptUploadsResult where
  bucket : String
  uploads : List UploadInfoResult
  isTruncated : Bool
deriving DecidableEq, Repr

/-- Comparator used by the `sort.Slice` call in `ListUploads`
(`results[i].Initiated.Before(results[j].Initiated)`); the sorted output is
non-decreasing with respect to this relation. -/
def initLE (a b : UploadInfoResult) : Prop := a.initiated ≤ b.initiated

instance : DecidableRel initLE := fun a b => Nat.decLe a.initiated b.initiated

instance : IsTotal UploadInfoResult initLE := ⟨fun a b => Nat.le_total a.initiated b.initiated⟩

instance : IsTrans UploadInfoResult initLE := ⟨fun _ _ _ h h' => Nat.le_trans h h'⟩

/-- The `idMarker` truncation loop in `ListUploads`, verbatim: it ranges over
the snapshot of `results`, and for each non-matching element executes
`copy(results, results[from:]); results = results[:len(results)-from]`
(which is `List.drop frm`); on the first match it sets `from = i+1` and
breaks. -/
def truncGo (idMarker : String) : List UploadInfoResult → Nat → List UploadInfoResult × Nat → List UploadInfoResult × Nat
  | [], _, st => st
  | r :: rest, i, (results, frm) =>
    if r.uploadID = idMarker then (results, i + 1)
    else truncGo idMarker rest (i + 1) (results.drop frm, frm)

/-- `ListUploads(bckName, idMarker, maxUploads)`: collect one entry per
registry binding, sort by initiation time, run the marker loop, cap at
`maxUploads` when positive. -/
def ListUploads (bckName idMarker : String) (maxUploads : Int) (reg : Uploads) : ListMptUploadsResult :=
  let results := reg.map (fun p => UploadInfoResult.mk p.2.objName p.1 p.2.ctime)
  let results := List.insertionSort initLE results
  let rf :=
    if idMarker = "" then (results, 0)
    else truncGo idMarker results 0 (results, 0)
  let results :=
    if 0 < maxUploads ∧ maxUploads < (rf.1.length : Int) then rf.1.take maxUploads.toNat
    else rf.1
  { bucket := bckName, uploads := results, isTruncated := 0 < rf.2 }

/-- A LOM as consumed by `ListParts` (fields actually read). -/
structure Lom where
  fqn : String
  bckName : String
  objName : String
  atime : Nat
deriving DecidableEq, Repr

/-- The part info returned by `ListParts`. -/
structure PartInfo where
  etag : String
  partNumber : Int
  size : Int
deriving DecidableEq, Repr

/-- `LoadMptXattr(fqn)`: read back a previously stored xattr block as an
`mpt` whose parts carry the persisted `(md5, size, num)` (FQN not persisted). -/
def LoadMptXattr (fqn : String) (s : S3State) : Option Mpt :=
  ((s.xattrs.find? (fun p => p.1 = fqn)).map (·.2)).map
    (fun l => { bckName := "", objName := "", ctime := 0
                parts := l.map (fun t => { md5 := t.1, fqn := "", size := t.2.1, num := t.2.2 }) })

/-- `ListParts(id, lom)`: parts of the active upload in stored order; on a
missing upload, fall back to the xattr block at `lom.FQN`. -/
def ListParts (id : String) (lom : Lom) (s : S3State) : Option (List PartInfo) :=
  let mpt? :=
    match lookupUp id s.up with
    | some m => some m
    | none =>
      match LoadMptXattr lom.fqn s with
      | none => none
      | some m => some { m with bckName := lom.bckName, objName := lom.objName, ctime := lom.atime }
  mpt?.map (fun m => m.parts.map (fun p => PartInfo.mk p.md5 p.num p.size))

/-- Fold of `AddPart` over a list of parts (errors of individual calls are
reflected in each step's Boolean and do not stop the fold). -/
def addParts (id : String) (ps : List MptPart) (s : S3State) : S3State :=
  ps.foldl (fun st p => (AddPart id p st).1) s

end S3M

namespace AuthN

/-- Bucket namespace (`cmn.Ns`): remote-cluster UUID plus namespace name. -/
structure Ns where
  uuid : String
  name : String
deriving DecidableEq, Repr

/-- Bucket identity (`cmn.Bck`). -/
structure Bck where
  name : String
  provider : String
  ns : Ns
deriving DecidableEq, Repr

/-- Modelled from the spec: `cmn.Bck.Equal` is not under src/; §3.1 states
that two buckets are equal iff provider, namespace and name all match. -/
def bckEqual (b o : Bck) : Bool :=
  b.name = o.name ∧ b.provider = o.provider ∧ b.ns = o.ns

/-- Modelled from the spec: the `apc` access bits are not under src/.
`AceGET`/`AcePUT` are object-level READ/WRITE bits; `AceShowCluster` and
`AceAdmin` are cluster-level bits, and `AccessCluster` is the union of the
cluster-level bits (§3.6 and scenario 5 of §8). -/
def AceGET : Nat := 1

/-- Modelled from the spec: the object-level WRITE bit. -/
def AcePUT : Nat := 2

/-- Modelled from the spec: a cluster-level bit below `AceAdmin`. -/
def AceShowCluster : Nat := 32768

/-- Modelled from the spec: the CLUSTER_ADMIN bit. -/
def AceAdmin : Nat := 65536

/-- Modelled from the spec: union of the cluster-level bits. -/
def AccessCluster : Nat := AceShowCluster ||| AceAdmin

/-- Go's `a &^ b` (AND NOT) on the embedded access masks. -/
def andn (a b : Nat) : Nat := a &&& (a ^^^ b)

/-- `apc.AccessAttrs.Has`: `a & perms == perms`. -/
def hasAcc (a p : Nat) : Bool := a &&& p = p

/-- One cluster ACL entry (`authn.CluACL`, fields read by the source). -/
structure CluACL where
  id : String
  access : Nat
deriving DecidableEq, Repr

/-- One bucket ACL entry (`authn.BckACL`, fields read by the source). -/
structure BckACL where
  bck : Bck
  access : Nat
deriving DecidableEq, Repr

/-- The AuthN token record (`Token` in part_000). -/
structure Token where
  userID : String
  expires : Nat
  token : String
  clusterACLs : List CluACL
  bucketACLs : List BckACL
  isAdmin : Bool
deriving DecidableEq, Repr

/-- Loop body of `Token.aclForCluster`: returns the first exact match,
else falls back to the most recently seen empty-ID (default) entry. -/
def aclForClusterGo (clusterID : String) : List CluACL → Option CluACL → Nat × Bool
  | [], none => (0, false)
  | [], some d => (d.access, true)
  | pm :: rest, d =>
    if pm.id = clusterID then (pm.access, true)
    else aclForClusterGo clusterID rest (if pm.id = "" then some pm else d)

/-- `Token.aclForCluster`. -/
def aclForCluster (tk : Token) (clusterID : String) : Nat × Bool :=
  aclForClusterGo clusterID tk.clusterACLs none

/-- Loop body of `Token.aclForBucket`, verbatim from the source: entries of a
different cluster are skipped; the source then computes `tbBck` (the entry's
bucket with `Ns.UUID` cleared) but compares the original `b.Bck` — not
`tbBck` — against the caller's bucket. -/
def aclForBucketGo (clusterID : String) (bck : Bck) : List BckACL → Nat × Bool
  | [] => (0, false)
  | b :: rest =>
    if ¬ b.bck.ns.uuid = clusterID then aclForBucketGo clusterID bck rest
    else
      let _tbBck : Bck := { b.bck with ns := { b.bck.ns with uuid := "" } }
      if bckEqual b.bck bck then (b.access, true)
      else aclForBucketGo clusterID bck rest

/-- `Token.aclForBucket`. -/
def aclForBucket (tk : Token) (clusterID : String) (bck : Bck) : Nat × Bool :=
  aclForBucketGo clusterID bck tk.bucketACLs

/-- Distinguishable errors returned by `Token.CheckPermissions`
(`noPermissions` stands for every `ErrNoPermissions`-wrapped return). -/
inductive AuthErr
  | noPermissions
  | emptyPerms
  | cluPermsNoClusterID
  | bckPermsNoBucket
deriving DecidableEq, Repr

/-- `Token.CheckPermissions(clusterID, bck, perms)`; `none` means nil error. -/
def CheckPermissions (tk : Token) (clusterID : String) (bck : Option Bck) (perms : Nat) : Option AuthErr :=
  if tk.isAdmin then none
  else if perms = 0 then some .emptyPerms
  else
    let cluPerms := perms &&& AccessCluster
    let objPerms := andn perms AccessCluster
    let pr := aclForCluster tk clusterID
    let cluACL := pr.1
    let cluOk := pr.2
    if ¬ cluPerms = 0 ∧ cluOk = false then some .noPermissions
    else if ¬ cluPerms = 0 ∧ clusterID = "" then some .cluPermsNoClusterID
    else if ¬ cluPerms = 0 ∧ hasAcc cluACL cluPerms = false then some .noPermissions
    else if objPerms = 0 then none
    else
      match bck with
      | none => some .bckPermsNoBucket
      | some b =>
        let br := aclForBucket tk clusterID b
        let bckACL := br.1
        let bckOk := br.2
        if bckOk then (if hasAcc bckACL objPerms then none else some .noPermissions)
        else if cluOk = false ∨ hasAcc cluACL objPerms = false then some .noPermissions
        else none

/-- Update the access of the `k`-th element, used to embed the pointer write
`o.Access = n.Access` through the slice element at index `k`. -/
def setBckAccess (l : List BckACL) (k : Nat) (a : Nat) : List BckACL :=
  match l[k]? with
  | none => l
  | some o => l.set k { o with access := a }

/-- Inner loop of `MergeBckACLs`, verbatim from the source: it iterates over
the snapshot of `oldACLs` taken at loop entry while `cur` is the live slice;
a match updates the matched element's access and breaks; every non-matching
element appends `n` (the `if !found` append sits inside the inner loop). -/
def mergeBckGoInner (n : BckACL) : List BckACL → Nat → List BckACL → List BckACL
  | [], _, cur => cur
  | o :: rest, k, cur =>
    if bckEqual o.bck n.bck then setBckAccess cur k n.access
    else mergeBckGoInner n rest (k + 1) (cur ++ [n])

/-- `MergeBckACLs(oldACLs, newACLs)` as written in the source. -/
def MergeBckACLs (oldACLs newACLs : List BckACL) : List BckACL :=
  newACLs.foldl (fun cur n => mergeBckGoInner n cur 0 cur) oldACLs

/-- The straightforward "look up by bucket; update-or-append" merge, as the
spec describes the intended behavior of `MergeBckACLs` (for comparison with
the source function above). -/
def MergeBckACLsSpec (oldACLs newACLs : List BckACL) : List BckACL :=
  newACLs.foldl
    (fun cur n =>
      match cur.findIdx? (fun o => bckEqual o.bck n.bck) with
      | some k => setBckAccess cur k n.access
      | none => cur ++ [n])
    oldACLs

/-- Update the access of the `k`-th cluster ACL. -/
def setCluAccess (l : List CluACL) (k : Nat) (a : Nat) : List CluACL :=
  match l[k]? with
  | none => l
  | some o => l.set k { o with access := a }

/-- `MergeClusterACLs(oldACLs, newACLs)`: here the `found` check sits after
the inner loop, giving the update-or-append merge. -/
def MergeClusterACLs (oldACLs newACLs : List CluACL) : List CluACL :=
  newACLs.foldl
    (fun cur n =>
      match cur.findIdx? (fun o => o.id = n.id) with
      | some k => setCluAccess cur k n.access
      | none => cur ++ [n])
    oldACLs

/-- JWT signing methods declared in a token header; the three `hs*` variants
are the instances of the library's `SigningMethodHMAC`. -/
inductive SigningMethod
  | hs256 | hs384 | hs512 | rs256 | es256 | noneAlg
deriving DecidableEq, Repr

/-- Does the method assert to `*jwt.SigningMethodHMAC`? -/
def SigningMethod.isHMAC : SigningMethod → Bool
  | .hs256 | .hs384 | .hs512 => true
  | _ => false

/-- A parsed-but-unverified JWT: the header's signing method, the `Token`
that `cos.MorphMarshal` would extract from its claims (none on marshal
failure), and whether its signature verifies under a given key. -/
structure RawJwt where
  method : SigningMethod
  claimsToken : Option Token
  validSig : String → Bool

/-- Errors surfaced by `DecryptToken`. -/
inductive JwtErr
  | keyFuncErr (msg : String)
  | sigInvalid
  | invalidToken
deriving DecidableEq, Repr

/-- Modelled from the spec: the third-party `jwt.Parse` (not repository
code) calls the key function with the token whose header names the signing
method, propagates the key function's error, and otherwise verifies the
HMAC-SHA256 signature with the returned shared secret (§6). -/
def jwtParse (tok : RawJwt) (keyFunc : RawJwt → Except String String) : Except JwtErr RawJwt :=
  match keyFunc tok with
  | .error e => .error (.keyFuncErr e)
  | .ok key => if tok.validSig key then .ok tok else .error .sigInvalid

/-- `DecryptToken(tokenStr, secret)`: reject non-HMAC signing methods inside
the key function, then extract the claims into a `Token`. -/
def DecryptToken (tok : RawJwt) (secret : String) : Except JwtErr Token :=
  match jwtParse tok (fun tk => if tk.method.isHMAC then .ok secret else .error "unexpected signing method") with
  | .error e => .error e
  | .ok jt =>
    match jt.claimsToken with
    | none => .error .invalidToken
    | some tk => .ok tk

end AuthN

namespace DpqMod

/-- The datapath query structure (`dpq` in dpq.go); `namespc` embeds the Go
field `bck.namespace`. -/
structure Dpq where
  provider : String := ""
  namespc : String := ""
  apndTy : String := ""
  apndHdl : String := ""
  archPath : String := ""
  archMime : String := ""
  ptime : String := ""
  uuid : String := ""
  origURL : String := ""
  owt : String := ""
  fltPresence : String := ""
  etlName : String := ""
  binfo : String := ""
  skipVC : Bool := false
  isGFN : Bool := false
  dontAddRemote : Bool := false
  silent : Bool := false
  latestVer : Bool := false
  isS3 : Bool := false
deriving DecidableEq, Repr

/-- Modelled from the spec: `cos.IsParseBool` is not under src/; Go's
`strconv.ParseBool` accepts exactly these spellings of true, and the helper
returns false on anything else. -/
def isParseBool (s : String) : Bool :=
  s = "1" ∨ s = "t" ∨ s = "T" ∨ s = "true" ∨ s = "TRUE" ∨ s = "True"

/-- Hexadecimal digit value, for percent-decoding. -/
def hexVal (c : Char) : Option Nat :=
  if '0' ≤ c ∧ c ≤ '9' then some (c.toNat - '0'.toNat)
  else if 'a' ≤ c ∧ c ≤ 'f' then some (c.toNat - 'a'.toNat + 10)
  else if 'A' ≤ c ∧ c ≤ 'F' then some (c.toNat - 'A'.toNat + 10)
  else none

/-- Modelled from the spec: Go's `url.QueryUnescape` (standard library, not
repository code): decode every `%XX` escape, turn `+` into a space, and fail
on a malformed escape. -/
def queryUnescape : List Char → Option (List Char)
  | [] => some []
  | c :: rest =>
    if c = '%' then
      match rest with
      | a :: b :: rest' =>
        match hexVal a, hexVal b with
        | some ha, some hb => (queryUnescape rest').map (fun t => Char.ofNat (16 * ha + hb) :: t)
        | _, _ => none
      | _ => none
    else if c = '+' then (queryUnescape rest).map (fun t => ' ' :: t)
    else (queryUnescape rest).map (fun t => c :: t)

/-- The `&`-splitting loop of `dpq.parse`: `strings.IndexByte(key, '&')`
bounds each segment; an absent separator ends the loop. -/
def querySegs (q : List Char) : List (List Char) :=
  if h : q = [] then []
  else
    match q.findIdx? (fun c => c = '&') with
    | some i => q.take i :: querySegs (q.drop (i + 1))
    | none => [q]
termination_by q.length
decreasing_by
  simp only [List.length_drop]
  exact Nat.sub_lt (List.length_pos.mpr h) (Nat.succ_pos i)

/-- `keyEQval(s)`: split at the first `=` when its index is positive;
otherwise the whole segment is the key and the value stays empty. -/
def keyEQval (s : List Char) : List Char × List Char :=
  match s.findIdx? (fun c => c = '=') with
  | some i => if 0 < i then (s.take i, s.drop (i + 1)) else (s, [])
  | none => (s, [])

/-- Errors of `dpq.parse`: a `url.QueryUnescape` failure, or the debug-only
unknown-key error. -/
inductive DpqErr
  | unescapeErr
  | unknownKey (k : String)
deriving DecidableEq, Repr

/-- The recognized datapath query keys (spec §6), i.e. the cases of the
switch in `dpq.parse`; the string values are modelled from the spec. -/
def recognizedKeys : List String :=
  ["provider", "namespace", "skip-vc", "unix-time", "uuid", "archpath", "archmime",
   "is-gfn", "orig-url", "append-type", "append-handle", "owt", "flt-presence",
   "dont-add-remote", "binfo", "etl-name", "silent", "latest-ver"]

/-- Modelled from the spec: the keys the debug-only check tolerates without
an error — the not-yet-used proxy keys and the S3 multipart/presigned keys
whose flows use conventional query parsing (`apc.QparamProxyID`,
`apc.QparamDontHeadRemote`, and the `s3.Qparam*`/`s3.Header*` constants are
not under src/). -/
def toleratedKeys : List String :=
  ["pid", "dont-head-remote",
   "uploads", "uploadId", "partNumber", "AWSAccessKeyId", "Expires", "Signature",
   "X-Amz-Algorithm", "X-Amz-Credential", "X-Amz-Date", "X-Amz-Expires",
   "X-Amz-SignedHeaders", "X-Amz-Signature", "x-id"]

/-- The body of `dpq.parse` over the `&`-split segments: each segment is
split by `keyEQval` and dispatched by the switch; a `url.QueryUnescape`
failure assigns the zero string and returns immediately; an unrecognized key
reaches the `debug.Func` block, which in debug mode records an unknown-key
error unless the key is tolerated, and in release mode does nothing; the
loop then continues. -/
def parseSegs (dbg : Bool) : List (List Char) → Dpq → Option DpqErr → Dpq × Option DpqErr
  | [], d, e => (d, e)
  | seg :: rest, d, e =>
    let kv := keyEQval seg
    let key := String.mk kv.1
    let value := String.mk kv.2
    if key = "provider" then parseSegs dbg rest { d with provider := value } e
    else if key = "namespace" then
      match queryUnescape kv.2 with
      | none => ({ d with namespc := "" }, some .unescapeErr)
      | some v => parseSegs dbg rest { d with namespc := String.mk v } e
    else if key = "skip-vc" then parseSegs dbg rest { d with skipVC := isParseBool value } e
    else if key = "unix-time" then parseSegs dbg rest { d with ptime := value } e
    else if key = "uuid" then parseSegs dbg rest { d with uuid := value } e
    else if key = "archpath" then
      match queryUnescape kv.2 with
      | none => ({ d with archPath := "" }, some .unescapeErr)
      | some v => parseSegs dbg rest { d with archPath := String.mk v } e
    else if key = "archmime" then
      match queryUnescape kv.2 with
      | none => ({ d with archMime := "" }, some .unescapeErr)
      | some v => parseSegs dbg rest { d with archMime := String.mk v } e
    else if key = "is-gfn" then parseSegs dbg rest { d with isGFN := isParseBool value } e
    else if key = "orig-url" then
      match queryUnescape kv.2 with
      | none => ({ d with origURL := "" }, some .unescapeErr)
      | some v => parseSegs dbg rest { d with origURL := String.mk v } e
    else if key = "append-type" then parseSegs dbg rest { d with apndTy := value } e
    else if key = "append-handle" then
      match queryUnescape kv.2 with
      | none => ({ d with apndHdl := "" }, some .unescapeErr)
      | some v => parseSegs dbg rest { d with apndHdl := String.mk v } e
    else if key = "owt" then parseSegs dbg rest { d with owt := value } e
    else if key = "flt-presence" then parseSegs dbg rest { d with fltPresence := value } e
    else if key = "dont-add-remote" then parseSegs dbg rest { d with dontAddRemote := isParseBool value } e
    else if key = "binfo" then parseSegs dbg rest { d with binfo := value } e
    else if key = "etl-name" then parseSegs dbg rest { d with etlName := value } e
    else if key = "silent" then parseSegs dbg rest { d with silent := isParseBool value } e
    else if key = "latest-ver" then parseSegs dbg rest { d with latestVer := isParseBool value } e
    else
      if dbg ∧ ¬ key ∈ toleratedKeys then parseSegs dbg rest d (some (.unknownKey key))
      else parseSegs dbg rest d e

/-- `dpq.parse(rawQuery)`, parameterized by whether the build is a debug
build (`dbg = true`) or a release build (`dbg = false`). -/
def dpqParse (dbg : Bool) (rawQuery : String) : Dpq × Option DpqErr :=
  parseSegs dbg (querySegs rawQuery.toList) {} none

end DpqMod

namespace Lru

/-- Modelled from the spec: the content-type constants `fs.WorkfileType` and
`fs.ObjectType` are not under src/ (§3.2 names the workfile and object
content types). -/
def WorkfileType : String := "workfile"

/-- Modelled from the spec: the object content type. -/
def ObjectType : String := "obj"

/-- One registered content type with its resolver's `PermToEvict()` answer. -/
structure ContentRes where
  contentType : String
  permToEvict : Bool
deriving DecidableEq, Repr

/-- One per-mountpath LRU worker as spawned by `InitAndRun`
(`bislocal = true` for local buckets, false for cloud buckets). -/
structure Jogger where
  mpath : String
  contentType : String
  bislocal : Bool
deriving DecidableEq, Repr

/-- The spawning skeleton of `InitAndRun`: for every registered content type
that may evict and is one of workfile/object, it spawns one local-bucket
jogger per mountpath, waits for all of them (`wg.Wait()`), then spawns one
cloud-bucket jogger per mountpath and waits again. Each inner list is one
batch of goroutines between consecutive waits; batches run sequentially. -/
def InitAndRunSchedule : List ContentRes → List String → List (List Jogger)
  | [], _ => []
  | ct :: rest, mpaths =>
    if ct.permToEvict = false then InitAndRunSchedule rest mpaths
    else if ¬ ct.contentType = WorkfileType ∧ ¬ ct.contentType = ObjectType then
      InitAndRunSchedule rest mpaths
    else
      (mpaths.map (fun mp => Jogger.mk mp ct.contentType true))
        :: (mpaths.map (fun mp => Jogger.mk mp ct.contentType false))
        :: InitAndRunSchedule rest mpaths

end Lru

namespace Xreg

/-- The observable state of one xaction: whether it is an on-demand
xaction (`xaction.XactDemand`), its pending count, and whether it has
reached a terminal state. -/
structure Xact where
  isDemand : Bool
  pending : Int
  terminal : Bool
deriving DecidableEq, Repr

/-- A `BucketEntry` in the registry; `eid` is the entry's identity (distinct
calls of `factory.New` yield distinct entries). -/
structure Entry where
  kind : String
  eid : Nat
  xact : Xact
deriving DecidableEq, Repr

/-- What a registered `BckFactory` determines about the entries it creates:
whether its xaction is an on-demand xaction. -/
structure FactorySpec where
  isDemand : Bool
deriving DecidableEq, Repr

/-- `RenewRes`. -/
structure RenewRes where
  entry : Option Entry
  err : Option String
  isNew : Bool
deriving DecidableEq, Repr

/-- The xaction registry: the read-only factory map `bckXacts`, the active
entries keyed by `(kind, bucket)`, and a counter minting entry identities. -/
structure Registry where
  bckXacts : List (String × FactorySpec)
  entries : List ((String × AuthN.Bck) × Entry)
  counter : Nat
deriving DecidableEq, Repr

/-- `r.bckXacts[kind]`. -/
def lookupFactory (kind : String) (r : Registry) : Option FactorySpec :=
  (r.bckXacts.find? (fun p => p.1 = kind)).map (·.2)

/-- The existing non-terminal entry for `(kind, bck)`, if any. -/
def findEntry (r : Registry) (kind : String) (bck : AuthN.Bck) : Option Entry :=
  (((r.entries.find? (fun p => p.1 = (kind, bck))).map (·.2)).filter
    (fun e => e.xact.terminal = false))

/-- Insert an entry for `(kind, bck)`, replacing any previous one (the
§3.4 uniqueness invariant: at most one non-terminal xaction per key). -/
def insertEntry (r : Registry) (kind : String) (bck : AuthN.Bck) (e : Entry) : Registry :=
  { r with entries := ((kind, bck), e) :: r.entries.filter (fun p => ¬ p.1 = (kind, bck)) }

/-- `factory.New(args)`: a fresh entry of the factory's kind. -/
def newEntry (r : Registry) (fsp : FactorySpec) (kind : String) : Entry × Registry :=
  ({ kind := kind, eid := r.counter
     xact := { isDemand := fsp.isDemand, pending := 0, terminal := false } },
   { r with counter := r.counter + 1 })

/-- `BaseBckEntry.PreRenewHook(previousEntry)` (src lines 85–89): keep the
previous entry iff its xaction is an on-demand xaction; never an error. -/
def preRenewHookBase (prev : Entry) : Bool × Option String :=
  (prev.xact.isDemand, none)

/-- `IncPending`/`DecPending` on the registered entry for `(kind, bck)`. -/
def updPending (r : Registry) (kind : String) (bck : AuthN.Bck) (dlt : Int) : Registry :=
  { r with entries := r.entries.map (fun p =>
      if p.1 = (kind, bck) then
        (p.1, { p.2 with xact := { p.2.xact with pending := p.2.xact.pending + dlt } })
      else p) }

/-- Modelled from the spec: `registry.renewBckXact` is not under src/ (only
its callers are); §4.4's renew protocol: under the registry lock, look up an
existing non-terminal entry for `(kind, bck)`; if present invoke the
pre-renew hook (here the src `BaseBckEntry` hook) and, when it keeps, return
the existing entry with `is_new = false`; otherwise start and insert the new
entry (replacing the key, per the §3.4 uniqueness invariant) and return it
with `is_new = true`. -/
def renewBckXact (r : Registry) (e : Entry) (bck : AuthN.Bck) : Registry × RenewRes :=
  match findEntry r e.kind bck with
  | some prev =>
    let kh := preRenewHookBase prev
    match kh.2 with
    | some er => (r, { entry := none, err := some er, isNew := false })
    | none =>
      if kh.1 then (r, { entry := some prev, err := none, isNew := false })
      else (insertEntry r e.kind bck e, { entry := some e, err := none, isNew := true })
  | none => (insertEntry r e.kind bck e, { entry := some e, err := none, isNew := true })

/-- `registry.renewBucketXact(kind, bck, args)` (src lines 127–146): build a
fresh entry with the registered factory, renew it, and when an existing
entry was returned (`!IsNew`) bump and release the pending count of an
on-demand xaction to defeat idle-timeout eviction. A kind absent from the
factory map is answered with an error (the Go code would dereference nil). -/
def renewBucketXact (r : Registry) (kind : String) (bck : AuthN.Bck) : Registry × RenewRes :=
  match lookupFactory kind r with
  | none => (r, { entry := none, err := some "kind not registered", isNew := false })
  | some fsp =>
    let er := newEntry r fsp kind
    let rr := renewBckXact er.2 er.1 bck
    match rr.2.err with
    | some _ => rr
    | none =>
      if rr.2.isNew = false then
        match rr.2.entry with
        | some e =>
          if e.xact.isDemand then (updPending (updPending rr.1 kind bck 1) kind bck (-1), rr.2)
          else rr
        | none => rr
      else rr

end Xreg

/-! ## Helper lemmas about the multipart tracker -/

namespace S3M

theorem lookup_setUp (id : String) (m : Mpt) (l : Uploads) :
    lookupUp id (setUp id m l) = some m := by
  simp [lookupUp, setUp, List.find?]

theorem lookup_eraseUp (id : String) (l : Uploads) :
    lookupUp id (eraseUp id l) = none := by
  induction l with
  | nil => rfl
  | cons p rest ih =>
    by_cases h : p.1 = id <;>
      simp_all [eraseUp, lookupUp, List.filter_cons, List.find?_cons, h]

theorem lookup_updateUp (id : String) (f : Mpt → Mpt) (l : Uploads) :
    lookupUp id (updateUp id f l) = (lookupUp id l).map f := by
  induction l with
  | nil => rfl
  | cons p rest ih =>
    by_cases h : p.1 = id <;>
      simp_all [updateUp, lookupUp, List.find?_cons, h]

theorem addParts_cons (id : String) (p : MptPart) (ps : List MptPart) (s : S3State) :
    addParts id (p :: ps) s = addParts id ps (AddPart id p s).1 := rfl

theorem addParts_up (id : String) (ps : List MptPart) (s : S3State) :
    lookupUp id (addParts id ps s).up
      = (lookupUp id s.up).map (fun m => { m with parts := m.parts ++ ps }) := by
  induction ps generalizing s with
  | nil => cases h : lookupUp id s.up <;> simp [addParts, h]
  | cons p ps ih =>
    rw [addParts_cons]
    cases h : lookupUp id s.up with
    | none =>
      have hs : (AddPart id p s).1 = s := by simp [AddPart, h]
      rw [hs, ih, h]; rfl
    | some m =>
      have hs : lookupUp id (AddPart id p s).1.up
          = some { m with parts := m.parts ++ [p] } := by
        simp [AddPart, h, lookup_updateUp]
      rw [ih, hs]
      simp

theorem addParts_disk (id : String) (ps : List MptPart) (s : S3State) :
    (addParts id ps s).disk = s.disk := by
  induction ps generalizing s with
  | nil => rfl
  | cons p ps ih =>
    rw [addParts_cons, ih]
    cases h : lookupUp id s.up <;> simp [AddPart, h]

theorem addParts_xattrs (id : String) (ps : List MptPart) (s : S3State) :
    (addParts id ps s).xattrs = s.xattrs := by
  induction ps generalizing s with
  | nil => rfl
  | cons p ps ih =>
    rw [addParts_cons, ih]
    cases h : lookupUp id s.up <;> simp [AddPart, h]

theorem removeFQN_subset (d : List String) (x f : String) (h : f ∈ removeFQN d x) : f ∈ d :=
  (List.mem_filter.mp h).1

theorem not_mem_removeFQN (d : List String) (x : String) : x ∉ removeFQN d x := by
  intro h
  have := (List.mem_filter.mp h).2
  simp at this

theorem mem_of_mem_removeFold (f : String) (parts : List MptPart) (d : List String)
    (h : f ∈ parts.foldl (fun d q => removeFQN d q.fqn) d) : f ∈ d := by
  induction parts generalizing d with
  | nil => simpa using h
  | cons q qs ih =>
    simp only [List.foldl_cons] at h
    exact removeFQN_subset d q.fqn f (ih (removeFQN d q.fqn) h)

theorem not_mem_removeFold (parts : List MptPart) (p : MptPart) (hp : p ∈ parts) (d : List String) :
    p.fqn ∉ parts.foldl (fun d q => removeFQN d q.fqn) d := by
  induction parts generalizing d with
  | nil => cases hp
  | cons q qs ih =>
    rcases List.mem_cons.mp hp with h | h
    · subst h
      intro hmem
      simp only [List.foldl_cons] at hmem
      exact not_mem_removeFQN d p.fqn (mem_of_mem_removeFold p.fqn qs (removeFQN d p.fqn) hmem)
    · intro hmem
      simp only [List.foldl_cons] at hmem
      exact ih h (removeFQN d q.fqn) hmem

theorem lookup_addParts_init (s : S3State) (u bck obj : String) (now : Nat) (ps : List MptPart) :
    lookupUp u (addParts u ps (InitUpload u bck obj now s)).up
      = some { bckName := bck, objName := obj, parts := ps, ctime := now } := by
  rw [addParts_up]
  simp [InitUpload, lookup_setUp]

theorem truncGo_fst (m : String) (l : List UploadInfoResult) (i : Nat) (rs : List UploadInfoResult) :
    (truncGo m l i (rs, 0)).1 = rs := by
  induction l generalizing i with
  | nil => rfl
  | cons r rest ih =>
    simp only [truncGo]
    split
    · rfl
    · simpa using ih (i + 1)

end S3M

/-! ## Claims about the multipart tracker -/

/-- Claim C2: for an upload `u` initialized and then extended via `AddPart`
with the parts `ps`, after `FinishUpload(u, fqn, aborted=true)` every added
part's workfile FQN has been removed from disk, `u` is absent from the
registry, `UploadExists u` is false, and no xattr was written. -/
theorem C2_finish_aborted (s : S3M.S3State) (u bck obj fqn : String) (now : Nat)
    (ps : List S3M.MptPart) :
    let s1 := S3M.addParts u ps (S3M.InitUpload u bck obj now s)
    let s2 := S3M.FinishUpload u fqn true s1
    (∀ p ∈ ps, p.fqn ∉ s2.disk) ∧ S3M.lookupUp u s2.up = none
      ∧ S3M.UploadExists u s2 = false ∧ s2.xattrs = s1.xattrs := by
  intro s1 s2
  have hup : S3M.lookupUp u s1.up
      = some { bckName := bck, objName := obj, parts := ps, ctime := now } :=
    S3M.lookup_addParts_init s u bck obj now ps
  have hfin : s2 = { up := S3M.eraseUp u s1.up
                     disk := ps.foldl (fun d p => S3M.removeFQN d p.fqn) s1.disk
                     xattrs := s1.xattrs } := by
    simp only [s2, S3M.FinishUpload, hup, if_true]
  refine ⟨?_, ?_, ?_, ?_⟩
  · intro p hp
    rw [hfin]
    exact S3M.not_mem_removeFold ps p hp s1.disk
  · rw [hfin]
    exact S3M.lookup_eraseUp u s1.up
  · rw [hfin]
    simp [S3M.UploadExists, S3M.lookup_eraseUp]
  · rw [hfin]

/-- Witness for C2 at a concrete two-part upload. -/
theorem C2_finish_aborted_witness :
    let s1 := S3M.addParts "u1" [⟨"m1", "w1", 5, 1⟩, ⟨"m3", "w3", 5, 3⟩]
      (S3M.InitUpload "u1" "b" "o" 0 ⟨[], ["w1", "w3"], []⟩)
    let s2 := S3M.FinishUpload "u1" "final" true s1
    "w1" ∉ s2.disk ∧ S3M.UploadExists "u1" s2 = false := by
  have h := C2_finish_aborted ⟨[], ["w1", "w3"], []⟩ "u1" "b" "o" "final" 0
    [⟨"m1", "w1", 5, 1⟩, ⟨"m3", "w3", 5, 3⟩]
  exact ⟨h.1 ⟨"m1", "w1", 5, 1⟩ (by decide), h.2.2.1⟩

/-- Claim C8: `FinishUpload(u, fqn, aborted=true)` on an upload id absent
from the registry returns without error and leaves the whole state (registry,
disk, xattrs) unchanged. -/
theorem C8_finish_missing (s : S3M.S3State) (u fqn : String)
    (h : S3M.lookupUp u s.up = none) :
    S3M.FinishUpload u fqn true s = s := by
  simp [S3M.FinishUpload, h]

/-- Witness for C8 on an empty registry. -/
theorem C8_finish_missing_witness :
    S3M.FinishUpload "u1" "f" true ⟨[], ["w"], []⟩ = ⟨[], ["w"], []⟩ :=
  C8_finish_missing ⟨[], ["w"], []⟩ "u1" "f" rfl

/-- Claim C4 counterexample: adding part number 3 and then part number 1
makes `ListParts` return the part numbers in arrival order `[3, 1]`, which is
not sorted ascending by part number. -/
theorem C4_counterexample :
    let s := S3M.addParts "u1" [⟨"m3", "f3", 5, 3⟩, ⟨"m1", "f1", 5, 1⟩]
      (S3M.InitUpload "u1" "b" "o" 0 ⟨[], [], []⟩)
    (S3M.ListParts "u1" ⟨"fqn", "b", "o", 0⟩ s).map (fun l => l.map (·.partNumber))
        = some [3, 1]
      ∧ ¬ List.Sorted (· ≤ ·) ([3, 1] : List Int) := by
  constructor
  · rfl
  · decide

/-- Claim C4 amended: `ListParts` returns every part added via `AddPart`,
in arrival (insertion) order — it does not sort by part number. -/
theorem C4_amended (s : S3M.S3State) (u bck obj : String) (now : Nat)
    (ps : List S3M.MptPart) (lom : S3M.Lom) :
    S3M.ListParts u lom (S3M.addParts u ps (S3M.InitUpload u bck obj now s))
      = some (ps.map (fun p => S3M.PartInfo.mk p.md5 p.num p.size)) := by
  have hup := S3M.lookup_addParts_init s u bck obj now ps
  simp [S3M.ListParts, hup]

/-- Claim C10: `ListUploads(bckName, idMarker, maxUploads)` derives its
entries from every active upload in the registry regardless of each upload's
own bucket — `bckName` does not filter and is only copied into the `Bucket`
field; the entries are sorted ascending by initiation time (a permutation of
one entry per registry binding before the cap), and when `maxUploads > 0` at
most `maxUploads` entries are returned. -/
theorem C10_list_uploads (reg : S3M.Uploads) (bckName idMarker : String) (maxU : Int) :
    let res := S3M.ListUploads bckName idMarker maxU reg
    let base := reg.map (fun p => S3M.UploadInfoResult.mk p.2.objName p.1 p.2.ctime)
    let all := List.insertionSort S3M.initLE base
    res.bucket = bckName
      ∧ (∀ b2, (S3M.ListUploads b2 idMarker maxU reg).uploads = res.uploads)
      ∧ res.uploads = (if 0 < maxU ∧ maxU < (all.length : Int) then all.take maxU.toNat else all)
      ∧ all.Perm base
      ∧ List.Sorted S3M.initLE res.uploads
      ∧ (0 < maxU → (res.uploads.length : Int) ≤ maxU) := by
  intro res base all
  have huploads : ∀ b2 : String, (S3M.ListUploads b2 idMarker maxU reg).uploads
      = (if 0 < maxU ∧ maxU < (all.length : Int) then all.take maxU.toNat else all) := by
    intro b2
    by_cases hm : idMarker = "" <;>
      simp [S3M.ListUploads, hm, S3M.truncGo_fst, all, base]
  have hsorted : List.Sorted S3M.initLE all := List.sorted_insertionSort S3M.initLE base
  refine ⟨rfl, ?_, ?_, ?_, ?_, ?_⟩
  · intro b2
    rw [huploads b2, huploads bckName]
  · exact huploads bckName
  · exact List.perm_insertionSort S3M.initLE base
  · rw [show res.uploads = _ from huploads bckName]
    split
    · exact List.Pairwise.sublist (List.take_sublist _ _) hsorted
    · exact hsorted
  · intro hpos
    rw [show res.uploads = _ from huploads bckName]
    split
    · rename_i hc
      rw [List.length_take]
      omega
    · rename_i hc
      rw [not_and] at hc
      have := hc hpos
      omega

/-- Witness for C10 on a concrete two-upload registry with a cap of 1. -/
theorem C10_list_uploads_witness :
    (S3M.ListUploads "bx" "" 1 [("u1", ⟨"b1", "o1", [], 5⟩), ("u2", ⟨"b2", "o2", [], 3⟩)]).uploads.length ≤ 1
      ∧ (S3M.ListUploads "bx" "" 1 [("u1", ⟨"b1", "o1", [], 5⟩), ("u2", ⟨"b2", "o2", [], 3⟩)]).bucket = "bx" := by
  have h := C10_list_uploads [("u1", ⟨"b1", "o1", [], 5⟩), ("u2", ⟨"b2", "o2", [], 3⟩)] "bx" "" 1
  have hl := h.2.2.2.2.2 (by decide)
  exact ⟨by exact_mod_cast hl, h.1⟩

/-! ## Claims about the AuthN helpers -/

/-- Claim C3 (evaluation at the failing input): with `is_admin = false`, a
cluster ACL granting READ on cluster C1 and a bucket ACL granting READ and
WRITE on bucket b1 of C1, the code denies `CheckPermissions(t, C1, b1, WRITE)`
— `aclForBucket` compares the token's bucket with its namespace UUID still
set against the caller's local bucket, so the bucket ACL never matches and
the cluster-wide READ ACL denies WRITE — while the spec's scenario expects
nil. The two other scenario calls (WRITE on a bucket with no ACL, and
CLUSTER_ADMIN) return NoPermissions as the claim states. -/
theorem C3_code_eval :
    let tokBck : AuthN.Bck := ⟨"b1", "ais", ⟨"C1", ""⟩⟩
    let b1 : AuthN.Bck := ⟨"b1", "ais", ⟨"", ""⟩⟩
    let b2 : AuthN.Bck := ⟨"b2", "ais", ⟨"", ""⟩⟩
    let t : AuthN.Token :=
      ⟨"user1", 0, "", [⟨"C1", AuthN.AceGET⟩], [⟨tokBck, AuthN.AceGET ||| AuthN.AcePUT⟩], false⟩
    AuthN.CheckPermissions t "C1" (some b1) AuthN.AcePUT = some .noPermissions
      ∧ AuthN.CheckPermissions t "C1" (some b2) AuthN.AcePUT = some .noPermissions
      ∧ AuthN.CheckPermissions t "C1" none AuthN.AceAdmin = some .noPermissions := by
  decide

/-- Claim C5 (evaluation at the failing inputs): `MergeBckACLs` drops a new
bucket entirely when `oldACLs` is empty, and appends it once per
non-matching old entry otherwise — not the update-or-append merge the claim
describes; `MergeBckACLsSpec` (the spec's merge) gives the intended result
on the same inputs. -/
theorem C5_code_eval :
    let bA : AuthN.Bck := ⟨"b1", "ais", ⟨"", ""⟩⟩
    let bB : AuthN.Bck := ⟨"b2", "ais", ⟨"", ""⟩⟩
    let bC : AuthN.Bck := ⟨"b3", "ais", ⟨"", ""⟩⟩
    let n : AuthN.BckACL := ⟨bC, 3⟩
    AuthN.MergeBckACLs [] [n] = []
      ∧ AuthN.MergeBckACLs [⟨bA, 1⟩, ⟨bB, 1⟩] [n] = [⟨bA, 1⟩, ⟨bB, 1⟩, n, n]
      ∧ AuthN.MergeBckACLsSpec [] [n] = [n]
      ∧ AuthN.MergeBckACLsSpec [⟨bA, 1⟩, ⟨bB, 1⟩] [n] = [⟨bA, 1⟩, ⟨bB, 1⟩, n] := by
  decide

/-- Claim C6: a token string whose JWT header declares a signing method
other than HMAC is rejected by `DecryptToken`: it returns the
unexpected-signing-method error and never a parsed token. -/
theorem C6_non_hmac_rejected (tok : AuthN.RawJwt) (secret : String)
    (h : tok.method.isHMAC = false) :
    AuthN.DecryptToken tok secret
      = Except.error (.keyFuncErr "unexpected signing method") := by
  simp [AuthN.DecryptToken, AuthN.jwtParse, h]

/-- Witness for C6: an RSA-signed token is rejected even when its signature
would verify and its claims would decode. -/
theorem C6_non_hmac_rejected_witness :
    AuthN.DecryptToken ⟨AuthN.SigningMethod.rs256, none, fun _ => true⟩ "secret"
      = Except.error (.keyFuncErr "unexpected signing method") :=
  C6_non_hmac_rejected ⟨AuthN.SigningMethod.rs256, none, fun _ => true⟩ "secret" rfl

/-! ## Helper lemmas about the xaction registry -/

namespace Xreg

theorem findEntry_counter (r : Registry) (c : Nat) (k : String) (b : AuthN.Bck) :
    findEntry { r with counter := c } k b = findEntry r k b := rfl

theorem findEntry_insertEntry (r : Registry) (k : String) (b : AuthN.Bck) (e : Entry)
    (ht : e.xact.terminal = false) :
    findEntry (insertEntry r k b e) k b = some e := by
  simp [findEntry, insertEntry, List.find?_cons, Option.filter, ht]

theorem updPending_cancel_entries (k : String) (b : AuthN.Bck) (d : Int)
    (ents : List ((String × AuthN.Bck) × Entry)) :
    ((ents.map (fun p =>
        if p.1 = (k, b) then
          (p.1, { p.2 with xact := { p.2.xact with pending := p.2.xact.pending + d } })
        else p)).map (fun p =>
        if p.1 = (k, b) then
          (p.1, { p.2 with xact := { p.2.xact with pending := p.2.xact.pending + -d } })
        else p))
      = ents := by
  induction ents with
  | nil => rfl
  | cons p ps ih =>
    obtain ⟨pk, pe⟩ := p
    obtain ⟨ek, ei, ex⟩ := pe
    obtain ⟨di, pd, tm⟩ := ex
    by_cases h : pk = (k, b) <;> simp [h, ih, add_neg_cancel_right]

theorem updPending_cancel (r : Registry) (k : String) (b : AuthN.Bck) (d : Int) :
    updPending (updPending r k b d) k b (-d) = r := by
  cases r with
  | mk bx ents c =>
    simp only [updPending]
    congr 1
    exact updPending_cancel_entries k b d ents

theorem renew_returns_existing (r : Registry) (kind : String) (bck : AuthN.Bck)
    (fsp : FactorySpec) (hreg : lookupFactory kind r = some fsp) (prev : Entry)
    (hfe : findEntry r kind bck = some prev) (hd : prev.xact.isDemand = true) :
    (renewBucketXact r kind bck).2 = { entry := some prev, err := none, isNew := false } := by
  simp [renewBucketXact, hreg, newEntry, renewBckXact, findEntry_counter, hfe,
    preRenewHookBase, hd]

theorem renew_kept_registry (r : Registry) (kind : String) (bck : AuthN.Bck)
    (fsp : FactorySpec) (hreg : lookupFactory kind r = some fsp) (prev : Entry)
    (hfe : findEntry r kind bck = some prev) (hd : prev.xact.isDemand = true) :
    (renewBucketXact r kind bck).1 = { r with counter := r.counter + 1 } := by
  simp [renewBucketXact, hreg, newEntry, renewBckXact, findEntry_counter, hfe,
    preRenewHookBase, hd, updPending_cancel]

theorem renew_inserts (r : Registry) (kind : String) (bck : AuthN.Bck)
    (fsp : FactorySpec) (hreg : lookupFactory kind r = some fsp)
    (hnk : findEntry r kind bck = none
      ∨ ∃ prev, findEntry r kind bck = some prev ∧ prev.xact.isDemand = false) :
    renewBucketXact r kind bck
      = (insertEntry { r with counter := r.counter + 1 } kind bck
           ⟨kind, r.counter, ⟨fsp.isDemand, 0, false⟩⟩,
         { entry := some ⟨kind, r.counter, ⟨fsp.isDemand, 0, false⟩⟩, err := none, isNew := true }) := by
  rcases hnk with h | ⟨prev, h, hd⟩
  · simp [renewBucketXact, hreg, newEntry, renewBckXact, findEntry_counter, h,
      preRenewHookBase]
  · simp [renewBucketXact, hreg, newEntry, renewBckXact, findEntry_counter, h,
      preRenewHookBase, hd]

end Xreg

/-! ## Claims about xaction renewal -/

/-- Claim C1 counterexample: for a registered kind whose factory produces a
non-on-demand xaction (so the src `BaseBckEntry.PreRenewHook` does not keep
the previous entry), the second back-to-back renew returns a fresh entry with
`IsNew = true`, not the first call's entry with `IsNew = false`. -/
theorem C1_counterexample :
    let r0 : Xreg.Registry := ⟨[("copy-bck", ⟨false⟩)], [], 0⟩
    let b : AuthN.Bck := ⟨"b1", "ais", ⟨"", ""⟩⟩
    let first := Xreg.renewBucketXact r0 "copy-bck" b
    let second := Xreg.renewBucketXact first.1 "copy-bck" b
    second.2.isNew = true ∧ ¬ second.2.entry = first.2.entry := by
  decide

/-- Claim C1 amended: for a registered kind whose factory produces an
on-demand xaction — exactly the entries the src `BaseBckEntry.PreRenewHook`
keeps — calling `renewBucketXact(kind, bck)` twice in a row returns on the
second call the same entry as the first call, with `IsNew = false` and no
error (the kept on-demand xaction also has its pending count bumped and
released, leaving it unchanged). -/
theorem C1_amended (r : Xreg.Registry) (kind : String) (bck : AuthN.Bck)
    (fsp : Xreg.FactorySpec) (hreg : Xreg.lookupFactory kind r = some fsp)
    (hdem : fsp.isDemand = true) :
    let first := Xreg.renewBucketXact r kind bck
    let second := Xreg.renewBucketXact first.1 kind bck
    second.2.err = none ∧ second.2.isNew = false
      ∧ second.2.entry = first.2.entry ∧ first.2.err = none := by
  intro first second
  rcases hfe : Xreg.findEntry r kind bck with _ | prev
  · have h1 := Xreg.renew_inserts r kind bck fsp hreg (Or.inl hfe)
    have hreg2 : Xreg.lookupFactory kind first.1 = some fsp := by
      show Xreg.lookupFactory kind (Xreg.renewBucketXact r kind bck).1 = some fsp
      rw [h1]; exact hreg
    have hf2 : Xreg.findEntry first.1 kind bck
        = some ⟨kind, r.counter, ⟨fsp.isDemand, 0, false⟩⟩ := by
      show Xreg.findEntry (Xreg.renewBucketXact r kind bck).1 kind bck = _
      rw [h1]
      exact Xreg.findEntry_insertEntry _ kind bck _ rfl
    have h2 := Xreg.renew_returns_existing first.1 kind bck fsp hreg2 _ hf2 hdem
    refine ⟨?_, ?_, ?_, ?_⟩
    · rw [h2]
    · rw [h2]
    · rw [h2]
      show _ = (Xreg.renewBucketXact r kind bck).2.entry
      rw [h1]
    · show (Xreg.renewBucketXact r kind bck).2.err = none
      rw [h1]
  · by_cases hd : prev.xact.isDemand = true
    · have hres1 := Xreg.renew_returns_existing r kind bck fsp hreg prev hfe hd
      have hr1 := Xreg.renew_kept_registry r kind bck fsp hreg prev hfe hd
      have hreg2 : Xreg.lookupFactory kind first.1 = some fsp := by
        show Xreg.lookupFactory kind (Xreg.renewBucketXact r kind bck).1 = some fsp
        rw [hr1]; exact hreg
      have hf2 : Xreg.findEntry first.1 kind bck = some prev := by
        show Xreg.findEntry (Xreg.renewBucketXact r kind bck).1 kind bck = some prev
        rw [hr1]; exact hfe
      have h2 := Xreg.renew_returns_existing first.1 kind bck fsp hreg2 prev hf2 hd
      refine ⟨by rw [h2], by rw [h2], ?_, by rw [hres1]⟩
      rw [h2]
      show _ = (Xreg.renewBucketXact r kind bck).2.entry
      rw [hres1]
    · have hd' : prev.xact.isDemand = false := by
        cases h : prev.xact.isDemand
        · rfl
        · exact absurd h hd
      have h1 := Xreg.renew_inserts r kind bck fsp hreg (Or.inr ⟨prev, hfe, hd'⟩)
      have hreg2 : Xreg.lookupFactory kind first.1 = some fsp := by
        show Xreg.lookupFactory kind (Xreg.renewBucketXact r kind bck).1 = some fsp
        rw [h1]; exact hreg
      have hf2 : Xreg.findEntry first.1 kind bck
          = some ⟨kind, r.counter, ⟨fsp.isDemand, 0, false⟩⟩ := by
        show Xreg.findEntry (Xreg.renewBucketXact r kind bck).1 kind bck = _
        rw [h1]
        exact Xreg.findEntry_insertEntry _ kind bck _ rfl
      have h2 := Xreg.renew_returns_existing first.1 kind bck fsp hreg2 _ hf2 hdem
      refine ⟨by rw [h2], by rw [h2], ?_, ?_⟩
      · rw [h2]
        show _ = (Xreg.renewBucketXact r kind bck).2.entry
        rw [h1]
      · show (Xreg.renewBucketXact r kind bck).2.err = none
        rw [h1]

/-- Witness for the amended C1 on a concrete single-kind on-demand registry. -/
theorem C1_amended_witness :
    (Xreg.renewBucketXact
        (Xreg.renewBucketXact ⟨[("get-remote", ⟨true⟩)], [], 0⟩ "get-remote"
          ⟨"b1", "ais", ⟨"", ""⟩⟩).1
        "get-remote" ⟨"b1", "ais", ⟨"", ""⟩⟩).2.isNew = false := by
  have h := C1_amended ⟨[("get-remote", ⟨true⟩)], [], 0⟩ "get-remote"
    ⟨"b1", "ais", ⟨"", ""⟩⟩ ⟨true⟩ (by decide) rfl
  exact h.2.1

/-! ## Helper lemmas about the LRU schedule -/

namespace Lru

theorem mem_getD_mem {α : Type} (l : List (List α)) (i : Nat) (g : α)
    (h : g ∈ l.getD i []) : l.getD i [] ∈ l := by
  by_cases hi : i < l.length
  · rw [List.getD_eq_getElem l [] hi]
    exact List.getElem_mem hi
  · rw [List.getD_eq_default l [] (Nat.le_of_not_lt hi)] at h
    cases h

theorem schedule_ct_mem (cts : List ContentRes) (mpaths : List String) :
    ∀ b ∈ InitAndRunSchedule cts mpaths, ∀ g ∈ b,
      g.contentType ∈ cts.map ContentRes.contentType := by
  induction cts with
  | nil => intro b hb; simp [InitAndRunSchedule] at hb
  | cons c0 rest ih =>
    intro b hb g hg
    simp only [InitAndRunSchedule] at hb
    by_cases hp : c0.permToEvict = false
    · rw [if_pos hp] at hb
      exact List.mem_cons_of_mem _ (ih b hb g hg)
    · rw [if_neg hp] at hb
      by_cases hw : ¬ c0.contentType = WorkfileType ∧ ¬ c0.contentType = ObjectType
      · rw [if_pos hw] at hb
        exact List.mem_cons_of_mem _ (ih b hb g hg)
      · rw [if_neg hw] at hb
        rcases List.mem_cons.mp hb with hb | hb
        · subst hb
          rcases List.mem_map.mp hg with ⟨mp, _, rfl⟩
          exact List.mem_cons_self _ _
        · rcases List.mem_cons.mp hb with hb | hb
          · subst hb
            rcases List.mem_map.mp hg with ⟨mp, _, rfl⟩
            exact List.mem_cons_self _ _
          · exact List.mem_cons_of_mem _ (ih b hb g hg)

theorem schedule_local_before_cloud (cts : List ContentRes) (mpaths : List String) :
    (cts.map ContentRes.contentType).Nodup →
    ∀ (ct : String) (i j : Nat),
      (∃ g ∈ (InitAndRunSchedule cts mpaths).getD i [], g.contentType = ct ∧ g.bislocal = true) →
      (∃ g ∈ (InitAndRunSchedule cts mpaths).getD j [], g.contentType = ct ∧ g.bislocal = false) →
      i < j := by
  induction cts with
  | nil =>
    intro _ ct i j hi _
    obtain ⟨g, hg, -, -⟩ := hi
    cases mem_getD_mem _ i g hg
  | cons c0 rest ih =>
    intro hnd ct i j hi hj
    have hnd2 : (c0.contentType :: rest.map ContentRes.contentType).Nodup := hnd
    obtain ⟨hc0, hnd'⟩ := List.nodup_cons.mp hnd2
    simp only [InitAndRunSchedule] at hi hj
    by_cases hp : c0.permToEvict = false
    · rw [if_pos hp] at hi hj
      exact ih hnd' ct i j hi hj
    · rw [if_neg hp] at hi hj
      by_cases hw : ¬ c0.contentType = WorkfileType ∧ ¬ c0.contentType = ObjectType
      · rw [if_pos hw] at hi hj
        exact ih hnd' ct i j hi hj
      · rw [if_neg hw] at hi hj
        cases i with
        | zero =>
          cases j with
          | zero =>
            obtain ⟨g, hg, -, hgl⟩ := hj
            simp only [List.getD_cons_zero] at hg
            rcases List.mem_map.mp hg with ⟨mp, -, rfl⟩
            cases hgl
          | succ j' => exact Nat.succ_pos j'
        | succ i' =>
          cases i' with
          | zero =>
            obtain ⟨g, hg, -, hgl⟩ := hi
            simp only [List.getD_cons_succ, List.getD_cons_zero] at hg
            rcases List.mem_map.mp hg with ⟨mp, -, rfl⟩
            cases hgl
          | succ i'' =>
            have hctmem : ct ∈ rest.map ContentRes.contentType := by
              obtain ⟨g, hg, hgct, -⟩ := hi
              simp only [List.getD_cons_succ] at hg
              have hb := mem_getD_mem _ i'' g hg
              have := schedule_ct_mem rest mpaths _ hb g hg
              rwa [hgct] at this
            cases j with
            | zero =>
              obtain ⟨g, hg, -, hgl⟩ := hj
              simp only [List.getD_cons_zero] at hg
              rcases List.mem_map.mp hg with ⟨mp, -, rfl⟩
              cases hgl
            | succ j' =>
              cases j' with
              | zero =>
                obtain ⟨g, hg, hgct, -⟩ := hj
                simp only [List.getD_cons_succ, List.getD_cons_zero] at hg
                rcases List.mem_map.mp hg with ⟨mp, -, rfl⟩
                have hgct' : c0.contentType = ct := hgct
                rw [hgct'] at hc0
                exact absurd hctmem hc0
              | succ j'' =>
                simp only [List.getD_cons_succ] at hi hj
                exact Nat.succ_lt_succ (Nat.succ_lt_succ (ih hnd' ct i'' j'' hi hj))

end Lru

/-! ## Claim about the LRU local-then-cloud ordering -/

/-- Claim C9: in the `InitAndRun` schedule — goroutine batches between
consecutive `wg.Wait()` calls run sequentially, so every jogger of one batch
completes before any jogger of a later batch starts — a batch containing a
local-bucket jogger of a content type strictly precedes every batch
containing a cloud-bucket jogger of that same content type: no cloud-bucket
jogger runs while a local-bucket jogger of its content type is unfinished.
The content types come from a Go map, hence the no-duplicates hypothesis. -/
theorem C9_local_before_cloud (cts : List Lru.ContentRes) (mpaths : List String)
    (hnd : (cts.map Lru.ContentRes.contentType).Nodup) (ct : String) (i j : Nat)
    (hi : ∃ g ∈ (Lru.InitAndRunSchedule cts mpaths).getD i [],
      g.contentType = ct ∧ g.bislocal = true)
    (hj : ∃ g ∈ (Lru.InitAndRunSchedule cts mpaths).getD j [],
      g.contentType = ct ∧ g.bislocal = false) :
    i < j :=
  Lru.schedule_local_before_cloud cts mpaths hnd ct i j hi hj

/-- Witness for C9: with the object content type on one mountpath, the local
batch (index 0) precedes the cloud batch (index 1). -/
theorem C9_local_before_cloud_witness : (0 : Nat) < 1 :=
  C9_local_before_cloud [⟨"obj", true⟩] ["m1"] (by decide) "obj" 0 1
    (by decide) (by decide)

/-! ## Helper lemmas about the datapath query parser -/

namespace DpqMod

theorem findIdxEq_none (l : List Char) (c : Char) (h : c ∉ l) :
    l.findIdx? (fun x => x = c) = none := by
  induction l with
  | nil => rfl
  | cons d rest ih =>
    have hd : ¬ d = c := fun hh => h (hh ▸ List.mem_cons_self d rest)
    have hr := ih (fun hh => h (List.mem_cons_of_mem d hh))
    simp [List.findIdx?_cons, hd, hr]

theorem findIdxEq_append_cons (a b : List Char) (c : Char) (h : c ∉ a) :
    (a ++ c :: b).findIdx? (fun x => x = c) = some a.length := by
  induction a with
  | nil => simp [List.findIdx?_cons]
  | cons d rest ih =>
    have hd : ¬ d = c := fun hh => h (hh ▸ List.mem_cons_self d rest)
    have hr := ih (fun hh => h (List.mem_cons_of_mem d hh))
    simp [List.findIdx?_cons, hd, hr]

theorem take_len_append (a x : List Char) : (a ++ x).take a.length = a := by
  induction a with
  | nil => rfl
  | cons c a ih => simp [ih]

theorem drop_len_succ_append (a b : List Char) (c : Char) :
    (a ++ c :: b).drop (a.length + 1) = b := by
  induction a with
  | nil => rfl
  | cons d a ih => simpa using ih

theorem querySegs_single (l : List Char) (h : '&' ∉ l) (hne : l ≠ []) :
    querySegs l = [l] := by
  rw [querySegs]
  simp [hne, findIdxEq_none l '&' h]

theorem querySegs_append (a b : List Char) (h : '&' ∉ a) :
    querySegs (a ++ '&' :: b) = a :: querySegs b := by
  rw [querySegs]
  have hne : ¬ a ++ '&' :: b = [] := by simp
  simp only [hne, dite_false, dif_neg, findIdxEq_append_cons a b '&' h,
    take_len_append, drop_len_succ_append]

theorem keyEQval_split (k v : List Char) (he : '=' ∉ k) (hne : k ≠ []) :
    keyEQval (k ++ '=' :: v) = (k, v) := by
  have hlen : 0 < k.length := List.length_pos.mpr hne
  simp [keyEQval, findIdxEq_append_cons k v '=' he, hlen,
    take_len_append k ('=' :: v), drop_len_succ_append k v '=']

theorem parseSegs_unknown_cons (dbg : Bool) (segs : List (List Char)) (d : Dpq)
    (e : Option DpqErr) (k v : List Char) (he : '=' ∉ k) (hne : k ≠ [])
    (hrec : String.mk k ∉ recognizedKeys) :
    parseSegs dbg ((k ++ '=' :: v) :: segs) d e
      = parseSegs dbg segs d
          (if dbg ∧ ¬ String.mk k ∈ toleratedKeys then some (.unknownKey (String.mk k))
           else e) := by
  have hkv := keyEQval_split k v he hne
  simp only [recognizedKeys, List.mem_cons, List.mem_singleton, not_or,
    List.not_mem_nil, or_false] at hrec
  obtain ⟨h1, h2, h3, h4, h5, h6, h7, h8, h9, h10, h11, h12, h13, h14, h15, h16, h17, h18⟩ := hrec
  simp only [parseSegs, hkv]
  rw [if_neg h1, if_neg h2, if_neg h3, if_neg h4, if_neg h5, if_neg h6, if_neg h7,
    if_neg h8, if_neg h9, if_neg h10, if_neg h11, if_neg h12, if_neg h13, if_neg h14,
    if_neg h15, if_neg h16, if_neg h17, if_neg h18]
  split <;> rfl

end DpqMod

/-! ## Claims about the datapath query parser -/

/-- Claim C7 counterexample: the key `uploads` lies outside the recognized
datapath-parameter set, yet in debug mode `dpq.parse` returns nil error — it
is one of the keys the debug-only check explicitly tolerates. -/
theorem C7_counterexample :
    "uploads" ∉ DpqMod.recognizedKeys
      ∧ (DpqMod.dpqParse true "uploads=x").2 = none := by
  constructor
  · decide
  · have hq : DpqMod.querySegs ("uploads=x".toList) = ["uploads=x".toList] :=
      DpqMod.querySegs_single _ (by decide) (by decide)
    show (DpqMod.parseSegs true (DpqMod.querySegs ("uploads=x".toList)) {} none).2 = none
    rw [hq]
    rfl

/-- Claim C7 amended: a key outside both the recognized datapath-parameter
set and the tolerated keys (proxy and S3 multipart/presigned keys) makes
`dpq.parse` return an unknown-key error in debug mode; in release mode the
unknown key is ignored — nil error, nothing set — and recognized keys
elsewhere in the query are still parsed. -/
theorem C7_amended (k v : List Char) (hk : '&' ∉ k) (hv : '&' ∉ v) (he : '=' ∉ k)
    (hne : k ≠ []) (hrec : String.mk k ∉ DpqMod.recognizedKeys)
    (htol : String.mk k ∉ DpqMod.toleratedKeys) :
    (DpqMod.dpqParse true (String.mk (k ++ '=' :: v))).2
        = some (.unknownKey (String.mk k))
      ∧ DpqMod.dpqParse false (String.mk (k ++ '=' :: v)) = ({}, none)
      ∧ DpqMod.dpqParse false (String.mk (k ++ '=' :: v ++ '&' :: ("silent=true".toList)))
          = ({ silent := true }, none) := by
  have hamp : '&' ∉ k ++ '=' :: v := by
    intro h
    rcases List.mem_append.mp h with h | h
    · exact hk h
    · rcases List.mem_cons.mp h with h | h
      · exact absurd h (by decide)
      · exact hv h
  have hne2 : k ++ '=' :: v ≠ [] := by simp
  have hq1 : DpqMod.querySegs (k ++ '=' :: v) = [k ++ '=' :: v] :=
    DpqMod.querySegs_single _ hamp hne2
  refine ⟨?_, ?_, ?_⟩
  · show (DpqMod.parseSegs true (DpqMod.querySegs (k ++ '=' :: v)) {} none).2 = _
    rw [hq1, DpqMod.parseSegs_unknown_cons true [] {} none k v he hne hrec]
    simp [htol, DpqMod.parseSegs]
  · show DpqMod.parseSegs false (DpqMod.querySegs (k ++ '=' :: v)) {} none = _
    rw [hq1, DpqMod.parseSegs_unknown_cons false [] {} none k v he hne hrec]
    simp [DpqMod.parseSegs]
  · show DpqMod.parseSegs false (DpqMod.querySegs ((k ++ '=' :: v) ++ '&' :: ("silent=true".toList))) {} none
        = ({ silent := true }, none)
    have hq2 : DpqMod.querySegs ("silent=true".toList) = ["silent=true".toList] :=
      DpqMod.querySegs_single _ (by decide) (by decide)
    rw [DpqMod.querySegs_append _ _ hamp, hq2,
      DpqMod.parseSegs_unknown_cons false _ {} none k v he hne hrec]
    simp only [Bool.false_eq_true, false_and, if_false]
    rfl

/-- Witness for the amended C7 at the concrete unknown key `foo`. -/
theorem C7_amended_witness :
    (DpqMod.dpqParse true "foo=1").2 = some (.unknownKey "foo")
      ∧ DpqMod.dpqParse false "foo=1" = ({}, none) := by
  have h := C7_amended "foo".toList "1".toList (by decide) (by decide) (by decide)
    (by decide) (by decide) (by decide)
  exact ⟨h.1, h.2.1⟩
